import Mathlib

/-!
Shallow embedding of the httptrading core in Lean 4, together with proofs
about the order-state derivation, the wire serializers, the leaky-bucket
rate limiter, the credential keeper, the gateway auth middleware and the
uniform error envelope.  Every definition is translated from the Python
source (model.py, http_server.py, tool/leaky_bucket.py, broker/longbridge.py,
broker/base.py).  Floats and timestamps are modelled with exact rationals,
Python ints with Lean Int, and exceptions with Option/Except.
-/

namespace HttpTrading

/-! ### model.py: enums and Contract -/

/-- model.py TradeType enum. -/
inductive TradeType where
  | Securities
  | Cryptocurrencies
  | Indexes
  | Currencies
  | Yields
deriving DecidableEq, Repr, Hashable

/-- model.py Contract dataclass: frozen value with trade_type, symbol, region. -/
structure Contract where
  trade_type : TradeType
  symbol : String
  region : String
deriving Repr

/-- Contract.unique_pair: the tuple (trade_type, symbol, region). -/
def Contract.unique_pair (c : Contract) : TradeType × String × String :=
  (c.trade_type, c.symbol, c.region)

/-- Contract.__eq__: compares the unique_pair tuples (only the Contract-vs-Contract
branch is modelled; comparison against other types returns False in Python). -/
def Contract.beqContract (a b : Contract) : Bool :=
  decide (a.unique_pair = b.unique_pair)

/-- Contract.__hash__: the hash of the unique_pair tuple. -/
def Contract.hashValue (c : Contract) : UInt64 :=
  hash c.unique_pair

/-! ### model.py: Order and its derived properties -/

/-- model.py Order dataclass.  qty and filled_qty are Python ints, avg_price a
float (modelled as an exact rational). -/
structure Order where
  order_id : String
  currency : String
  qty : Int
  filled_qty : Int := 0
  avg_price : Rat := 0
  error_reason : String := ""
  is_canceled : Bool := false
  is_pending_cancel : Bool := false
deriving Repr

/-- Order.is_filled: starts False, set True when filled_qty >= qty. -/
def Order.is_filled (o : Order) : Bool :=
  if o.filled_qty ≥ o.qty then true else false

/-- Order.is_completed: the if/elif chain of model.py lines 138-146
(filled, else canceled, else non-empty error_reason — Python string truthiness). -/
def Order.is_completed (o : Order) : Bool :=
  if o.filled_qty ≥ o.qty then true
  else if o.is_canceled then true
  else if o.error_reason ≠ "" then true
  else false

/-- Order.is_cancelable: not is_completed and not is_pending_cancel. -/
def Order.is_cancelable (o : Order) : Bool :=
  !o.is_completed && !o.is_pending_cancel

/-! ### JSON values and the two order serializers -/

/-- A small JSON value type for the wire projections. -/
inductive JValue where
  | null
  | bool (b : Bool)
  | int (n : Int)
  | rat (q : Rat)
  | str (s : String)
deriving Repr, DecidableEq

/-- model.py JsonDefault.json_default, Order branch (lines 217-230): the full
ten-field order object, including isCancelable. -/
def JsonDefault.order_json (o : Order) : List (String × JValue) :=
  [("type", JValue.str "order"),
   ("orderId", JValue.str o.order_id),
   ("currency", JValue.str o.currency),
   ("qty", JValue.int o.qty),
   ("filledQty", JValue.int o.filled_qty),
   ("avgPrice", JValue.rat o.avg_price),
   ("errorReason", JValue.str o.error_reason),
   ("isCanceled", JValue.bool o.is_canceled),
   ("isFilled", JValue.bool o.is_filled),
   ("isCompleted", JValue.bool o.is_completed),
   ("isCancelable", JValue.bool o.is_cancelable)]

/-- http_server.py HttpTradingView.json_default, Order branch (lines 85-97):
the serializer actually used by the gateway's dumps; it stops at isCompleted
and emits no isCancelable key. -/
def HttpTradingView.order_json (o : Order) : List (String × JValue) :=
  [("type", JValue.str "order"),
   ("orderId", JValue.str o.order_id),
   ("currency", JValue.str o.currency),
   ("qty", JValue.int o.qty),
   ("filledQty", JValue.int o.filled_qty),
   ("avgPrice", JValue.rat o.avg_price),
   ("errorReason", JValue.str o.error_reason),
   ("isCanceled", JValue.bool o.is_canceled),
   ("isFilled", JValue.bool o.is_filled),
   ("isCompleted", JValue.bool o.is_completed)]

/-- The Order of the round-trip test: order_id "X1", currency "USD",
qty 100, filled_qty 100, remaining fields at their defaults. -/
def orderX1 : Order :=
  { order_id := "X1", currency := "USD", qty := 100, filled_qty := 100 }

/-! ### tool/leaky_bucket.py: LeakyBucket

Timestamps (TimeTools.utc_now().timestamp()) and the leak rate are modelled
as exact rationals; the used-token count and capacity are Python ints. -/

/-- The mutable state of a LeakyBucket instance (the two locks serialize the
calling conventions and carry no data; they are not part of the state). -/
structure LeakyBucket where
  capacity : Int
  used_tokens : Int
  leak_rate : Rat
  last_time : Rat
deriving Repr, DecidableEq

/-- LeakyBucket.__init__: the assertion chain (leak_rate > 0, capacity a
positive int defaulting to 1, used_tokens a non-negative int defaulting to 0,
capacity >= used_tokens); a failed assert is modelled as none. -/
def LeakyBucket.init (leak_rate : Rat) (capacity used_tokens : Option Int)
    (now : Rat) : Option LeakyBucket :=
  if leak_rate > 0 then
    if capacity.getD 1 > 0 then
      if used_tokens.getD 0 ≥ 0 then
        if capacity.getD 1 ≥ used_tokens.getD 0 then
          some { capacity := capacity.getD 1, used_tokens := used_tokens.getD 0,
                 leak_rate := leak_rate, last_time := now }
        else none
      else none
    else none
  else none

/-- LeakyBucket._get_used_tokens: delta = leak_rate/60 * (now - last_time),
floored; the new count is max(0, used - delta); when rewrite_tokens is set the
count is written back, otherwise the state is untouched.  Returns the computed
count together with the post-call state. -/
def LeakyBucket.getUsedTokens (b : LeakyBucket) (rewriteFlag : Bool) (now : Rat) :
    Int × LeakyBucket :=
  let delta : Rat := b.leak_rate / 60 * (now - b.last_time)
  let deltaFloor : Int := ⌊delta⌋
  let new_used_tokens : Int := max 0 (b.used_tokens - deltaFloor)
  (new_used_tokens,
   if rewriteFlag then { b with used_tokens := new_used_tokens } else b)

/-- LeakyBucket.used_tokens property: _get_used_tokens with rewrite_tokens=False. -/
def LeakyBucket.usedTokensRead (b : LeakyBucket) (now : Rat) : Int × LeakyBucket :=
  b.getUsedTokens false now

/-- LeakyBucket.available_tokens property: capacity - used_tokens. -/
def LeakyBucket.availableTokensRead (b : LeakyBucket) (now : Rat) : Int × LeakyBucket :=
  let r := b.usedTokensRead now
  (b.capacity - r.1, r.2)

/-- One locked iteration of LeakyBucket._consume / consume_async: recompute the
decayed count with rewrite, and when 1 + count <= capacity commit by
incrementing used_tokens and stamping last_time = now; otherwise leave the
rewritten count in place and report failure (the caller then sleeps and
retries). -/
def LeakyBucket.consumeAttempt (b : LeakyBucket) (now : Rat) : Bool × LeakyBucket :=
  let r := b.getUsedTokens true now
  if 1 + r.1 ≤ b.capacity then
    (true, { r.2 with used_tokens := r.2.used_tokens + 1, last_time := now })
  else
    (false, r.2)

/-- The _consume retry loop, driven by the list of clock readings at which the
successive attempts run; stops at the first committing attempt. -/
def LeakyBucket.consumeRun (b : LeakyBucket) : List Rat → Bool × LeakyBucket
  | [] => (false, b)
  | t :: ts =>
    let r := b.consumeAttempt t
    if r.1 then (true, r.2) else r.2.consumeRun ts

/-- A sequence of used_tokens property reads at the given clock readings,
with no intervening acquire. -/
def LeakyBucket.readsRun (b : LeakyBucket) : List Rat → LeakyBucket
  | [] => b
  | t :: ts => ((b.usedTokensRead t).2).readsRun ts

/-- The bucket invariant of the spec: the constructor-established facts
(leak rate positive, capacity at least 1) together with the used-token count
staying between 0 and the capacity. -/
def LeakyBucket.Inv (b : LeakyBucket) : Prop :=
  0 < b.leak_rate ∧ 0 < b.capacity ∧ 0 ≤ b.used_tokens ∧ b.used_tokens ≤ b.capacity

/-! ### broker/longbridge.py: TokenKeeper -/

/-- Three days in seconds: TimeTools.timedelta(expiry, days=-3) subtracts this. -/
def threeDays : Rat := 3 * 86400

/-- The in-memory state of a TokenKeeper: the token string and its expiry
timestamp. -/
structure TokenKeeper where
  token : String
  expiry : Rat
deriving Repr, DecidableEq

/-- TokenKeeper.__init__ after reading the toml file: token and expiry are the
parsed fields (none when absent; an empty token string is falsy like a missing
one), expiry must parse (fromisoformat of a missing value raises), and a record
whose expiry is at or before the current time is rejected. -/
def TokenKeeper.init (tokenOpt : Option String) (expiryOpt : Option Rat)
    (now : Rat) : Except String TokenKeeper :=
  let token := tokenOpt.getD ""
  if token = "" then Except.error "AssertionError: token"
  else
    match expiryOpt with
    | none => Except.error "TypeError: expiry is not a valid isoformat string"
    | some expiry =>
      if now ≥ expiry then Except.error "access token already expired"
      else Except.ok { token := token, expiry := expiry }

/-- TokenKeeper.is_expired: current time at or past expiry.  (The Python guard
`if not self.expiry` can never fire: expiry is always a datetime.) -/
def TokenKeeper.is_expired (k : TokenKeeper) (now : Rat) : Bool :=
  if now ≥ k.expiry then true else false

/-- TokenKeeper.should_refresh: False once now >= expiry, True once
now >= expiry - 3 days, False otherwise. -/
def TokenKeeper.should_refresh (k : TokenKeeper) (now : Rat) : Bool :=
  if now ≥ k.expiry then false
  else if now ≥ k.expiry - threeDays then true
  else false

/-! ### http_server.py: auth middleware -/

/-- The slice of a BaseBroker the auth middleware reads: its instance id and
its configured token set (set membership only, modelled as a list). -/
structure BrokerInstance where
  instance_id : String
  tokens : List String
deriving Repr, DecidableEq

/-- Outcome of the auth middleware: either the uniform HTTPNotFound response,
or the matched broker attached to the request and the handler invoked. -/
inductive AuthResult where
  | notFound
  | ok (broker : BrokerInstance)
deriving Repr, DecidableEq

/-- The for-loop of auth_middleware over the registered brokers: skip brokers
with a different instance id; on the first id match, a token outside that
instance's set raises HTTPNotFound, otherwise the broker is attached; the
for-else raises HTTPNotFound when no broker matched. -/
def authLoop (instance_id token : String) : List BrokerInstance → AuthResult
  | [] => AuthResult.notFound
  | broker :: rest =>
    if broker.instance_id ≠ instance_id then authLoop instance_id token rest
    else if token ∉ broker.tokens then AuthResult.notFound
    else AuthResult.ok broker

/-- http_server.py auth_middleware (lines 222-243): missing instance id,
missing HT-TOKEN header (aiohttp returns '' for both), or a token of length
outside 16..64 each raise HTTPNotFound before the broker loop runs. -/
def auth_middleware (brokers : List BrokerInstance) (instance_id token : String) :
    AuthResult :=
  if instance_id = "" then AuthResult.notFound
  else if token = "" then AuthResult.notFound
  else if token.length < 16 ∨ token.length > 64 then AuthResult.notFound
  else authLoop instance_id token brokers

/-! ### http_server.py: uniform response envelope -/

/-- The identity fields of a broker used by response_api: instance_id,
broker_name, broker_display. -/
structure BrokerIdentity where
  instance_id : String
  broker_name : String
  broker_display : String
deriving Repr, DecidableEq

/-- HttpTradingView.response_api (lines 108-120): the fixed envelope dict with
the broker identity when the broker is known (None fields otherwise), the
server timestamp, the stringified exception or None, then resp.update(args). -/
def response_api (timeStr : String) (broker : Option BrokerIdentity)
    (args : List (String × JValue)) (ex : Option String) : List (String × JValue) :=
  [("type", JValue.str "apiResponse"),
   ("instanceId", broker.elim JValue.null (fun b => JValue.str b.instance_id)),
   ("broker", broker.elim JValue.null (fun b => JValue.str b.broker_name)),
   ("brokerDisplay", broker.elim JValue.null (fun b => JValue.str b.broker_display)),
   ("time", JValue.str timeStr),
   ("ex", ex.elim JValue.null (fun m => JValue.str m))] ++ args

/-- What a handler invocation can produce, as seen by exception_middleware:
a successful response_api call with its args, a BrokerError (which carries the
originating broker, base.py lines 144-147), or any other exception with the
request's current broker attribute possibly unset. -/
inductive HandlerOutcome where
  | success (broker : BrokerIdentity) (args : List (String × JValue))
  | brokerError (broker : BrokerIdentity) (msg : String)
  | otherError (broker : Option BrokerIdentity) (msg : String)

/-- http_server.py exception_middleware (lines 246-255): pass a successful
response through; render a BrokerError via response_api with its own broker;
render any other exception via response_api with the request's broker (or
None). -/
def exception_middleware (timeStr : String) : HandlerOutcome → List (String × JValue)
  | HandlerOutcome.success broker args => response_api timeStr (some broker) args none
  | HandlerOutcome.brokerError broker msg => response_api timeStr (some broker) [] (some msg)
  | HandlerOutcome.otherError broker msg => response_api timeStr broker [] (some msg)

end HttpTrading

namespace HttpTrading

/-- C1: Order's derived properties are pure functions of its stored fields:
is_filled is true iff filled_qty >= qty; is_completed is true iff is_filled or
is_canceled or error_reason is non-empty; is_cancelable is true iff neither
completed nor pending-cancel.  Each derivation reads only the Order value. -/
theorem order_derived_props (o : Order) :
    o.is_filled = decide (o.filled_qty ≥ o.qty) ∧
    o.is_completed = (o.is_filled || o.is_canceled || decide (o.error_reason ≠ "")) ∧
    o.is_cancelable = (!o.is_completed && !o.is_pending_cancel) := by
  refine ⟨?_, ?_, rfl⟩
  · by_cases h : o.filled_qty ≥ o.qty <;> simp [Order.is_filled, h]
  · by_cases h : o.filled_qty ≥ o.qty <;>
      by_cases hc : o.is_canceled <;>
      by_cases he : o.error_reason = "" <;>
      simp [Order.is_filled, Order.is_completed, h, hc, he]

/-- C2: the order whose round-trip the spec demands is serialized by the
gateway's own serializer (HttpTradingView.json_default, the default passed to
json.dumps by HttpTradingView.dumps) WITHOUT the isCancelable key, while the
model's JsonDefault.json_default emits all ten fields; both agree on
isFilled=true and isCompleted=true for order X1, and JsonDefault yields
isCancelable=false there. -/
theorem gateway_order_json_omits_isCancelable :
    (HttpTradingView.order_json orderX1).lookup "isCancelable" = none ∧
    (JsonDefault.order_json orderX1).lookup "isCancelable" = some (JValue.bool false) ∧
    (JsonDefault.order_json orderX1).lookup "isFilled" = some (JValue.bool true) ∧
    (JsonDefault.order_json orderX1).lookup "isCompleted" = some (JValue.bool true) ∧
    (HttpTradingView.order_json orderX1).lookup "isFilled" = some (JValue.bool true) ∧
    (HttpTradingView.order_json orderX1).lookup "isCompleted" = some (JValue.bool true) ∧
    (JsonDefault.order_json orderX1).map Prod.fst =
      ["type", "orderId", "currency", "qty", "filledQty", "avgPrice", "errorReason",
       "isCanceled", "isFilled", "isCompleted", "isCancelable"] ∧
    (HttpTradingView.order_json orderX1).map Prod.fst =
      ["type", "orderId", "currency", "qty", "filledQty", "avgPrice", "errorReason",
       "isCanceled", "isFilled", "isCompleted"] :=
  ⟨rfl, rfl, rfl, rfl, rfl, rfl, rfl, rfl⟩

/-- C3: on every acquire attempt and on every used_tokens read, the used-token
count is recomputed lazily as max(0, used - floor(leak_rate/60 * (now -
last_update))); the floor is applied to the decay product, and the acquire
attempt commits exactly when that freshly decayed count plus one fits the
capacity.  No other operation decrements the count. -/
theorem leaky_bucket_lazy_decay (b : LeakyBucket) (rewriteFlag : Bool) (now : Rat) :
    (b.getUsedTokens rewriteFlag now).1
      = max 0 (b.used_tokens - ⌊b.leak_rate / 60 * (now - b.last_time)⌋) ∧
    (b.usedTokensRead now).1
      = max 0 (b.used_tokens - ⌊b.leak_rate / 60 * (now - b.last_time)⌋) ∧
    ((b.consumeAttempt now).1 = true ↔
      1 + max 0 (b.used_tokens - ⌊b.leak_rate / 60 * (now - b.last_time)⌋) ≤ b.capacity) := by
  refine ⟨rfl, rfl, ?_⟩
  by_cases h : 1 + max 0 (b.used_tokens - ⌊b.leak_rate / 60 * (now - b.last_time)⌋)
      ≤ b.capacity <;>
    simp [LeakyBucket.consumeAttempt, LeakyBucket.getUsedTokens, h]

/-- C10: reading the used_tokens or available_tokens property never mutates the
bucket (rewrite_tokens=False), and any sequence of such reads with no
intervening acquire leaves the state identical. -/
theorem leaky_bucket_reads_pure (b : LeakyBucket) (now : Rat) (ts : List Rat) :
    (b.usedTokensRead now).2 = b ∧
    (b.availableTokensRead now).2 = b ∧
    b.readsRun ts = b := by
  refine ⟨rfl, rfl, ?_⟩
  induction ts with
  | nil => rfl
  | cons t ts ih => exact ih

/-- A bucket built by LeakyBucket.__init__ satisfies the invariant: the
assertion chain establishes it. -/
lemma LeakyBucket.init_inv (rate : Rat) (cap used : Option Int) (now : Rat)
    (b : LeakyBucket) (h : LeakyBucket.init rate cap used now = some b) : b.Inv := by
  unfold LeakyBucket.init at h
  split_ifs at h with h1 h2 h3 h4
  cases h
  exact ⟨h1, h2, h3, h4⟩

/-- What a successful consume attempt produces: the incremented count over the
rewritten state, stamped with the commit time. -/
lemma LeakyBucket.consumeAttempt_pos (b : LeakyBucket) (now : Rat)
    (h : 1 + (b.getUsedTokens true now).1 ≤ b.capacity) :
    b.consumeAttempt now = (true,
      { capacity := b.capacity, used_tokens := (b.getUsedTokens true now).1 + 1,
        leak_rate := b.leak_rate, last_time := now }) := by
  rw [LeakyBucket.consumeAttempt]
  dsimp only
  rw [if_pos h]
  rfl

/-- What a failed consume attempt produces: only the rewritten decayed count. -/
lemma LeakyBucket.consumeAttempt_neg (b : LeakyBucket) (now : Rat)
    (h : ¬ (1 + (b.getUsedTokens true now).1 ≤ b.capacity)) :
    b.consumeAttempt now = (false,
      { capacity := b.capacity, used_tokens := (b.getUsedTokens true now).1,
        leak_rate := b.leak_rate, last_time := b.last_time }) := by
  rw [LeakyBucket.consumeAttempt]
  dsimp only
  rw [if_neg h]
  rfl

/-- The decayed count is never negative (the max with 0). -/
lemma LeakyBucket.getUsedTokens_fst_nonneg (b : LeakyBucket) (flag : Bool) (now : Rat) :
    0 ≤ (b.getUsedTokens flag now).1 :=
  le_max_left 0 _

/-- With a positive leak rate and a clock that has not gone backwards, the
decayed count never exceeds the stored count. -/
lemma LeakyBucket.getUsedTokens_fst_le (b : LeakyBucket) (flag : Bool) (now : Rat)
    (hrate : 0 < b.leak_rate) (h0 : 0 ≤ b.used_tokens) (ht : b.last_time ≤ now) :
    (b.getUsedTokens flag now).1 ≤ b.used_tokens := by
  have hdelta : (0:Rat) ≤ b.leak_rate / 60 * (now - b.last_time) := by
    have h60 : (0:Rat) ≤ b.leak_rate / 60 := by positivity
    have hnn : (0:Rat) ≤ now - b.last_time := by linarith
    exact mul_nonneg h60 hnn
  have hfloor : (0:Int) ≤ ⌊b.leak_rate / 60 * (now - b.last_time)⌋ :=
    Int.le_floor.mpr (by exact_mod_cast hdelta)
  show max 0 (b.used_tokens - ⌊b.leak_rate / 60 * (now - b.last_time)⌋) ≤ b.used_tokens
  exact max_le h0 (by linarith)

/-- One consume attempt preserves the invariant (monotone clock). -/
lemma LeakyBucket.consumeAttempt_inv (b : LeakyBucket) (now : Rat) (hb : b.Inv)
    (ht : b.last_time ≤ now) : ((b.consumeAttempt now).2).Inv := by
  obtain ⟨hrate, hcap, h0, hle⟩ := hb
  have hnonneg := b.getUsedTokens_fst_nonneg true now
  have hub := b.getUsedTokens_fst_le true now hrate h0 ht
  by_cases h : 1 + (b.getUsedTokens true now).1 ≤ b.capacity
  · rw [b.consumeAttempt_pos now h]
    refine ⟨hrate, hcap, ?_, ?_⟩
    · show (0:Int) ≤ (b.getUsedTokens true now).1 + 1
      linarith
    · show (b.getUsedTokens true now).1 + 1 ≤ b.capacity
      linarith
  · rw [b.consumeAttempt_neg now h]
    refine ⟨hrate, hcap, ?_, ?_⟩
    · exact hnonneg
    · show (b.getUsedTokens true now).1 ≤ b.capacity
      linarith

/-- A consume attempt never moves last_time past now (monotone clock). -/
lemma LeakyBucket.consumeAttempt_last_time_le (b : LeakyBucket) (now : Rat)
    (ht : b.last_time ≤ now) : ((b.consumeAttempt now).2).last_time ≤ now := by
  by_cases h : 1 + (b.getUsedTokens true now).1 ≤ b.capacity
  · rw [b.consumeAttempt_pos now h]
  · rw [b.consumeAttempt_neg now h]
    exact ht

/-- Weakening the head of a chain of non-decreasing clock readings. -/
lemma chain_le_of_le {s t : Rat} {ts : List Rat}
    (h : List.Chain (fun x y : Rat => x ≤ y) t ts) (hst : s ≤ t) :
    List.Chain (fun x y : Rat => x ≤ y) s ts := by
  cases h with
  | nil => exact List.Chain.nil
  | cons hr hc => exact List.Chain.cons (le_trans hst hr) hc

/-- The whole retry loop preserves the invariant when the clock readings are
non-decreasing and start no earlier than the bucket's last_time. -/
lemma LeakyBucket.consumeRun_inv (ts : List Rat) : ∀ b : LeakyBucket, b.Inv →
    List.Chain (fun x y : Rat => x ≤ y) b.last_time ts →
    ((b.consumeRun ts).2).Inv := by
  induction ts with
  | nil => intro b hb _; exact hb
  | cons t ts ih =>
    intro b hb hc
    cases hc with
    | cons hle hchain =>
      show ((if (b.consumeAttempt t).1 then ((true : Bool), (b.consumeAttempt t).2)
        else (b.consumeAttempt t).2.consumeRun ts).2).Inv
      by_cases h : (b.consumeAttempt t).1 = true
      · simpa [h] using b.consumeAttempt_inv t hb hle
      · simp only [h, if_false, Bool.false_eq_true]
        exact ih _ (b.consumeAttempt_inv t hb hle)
          (chain_le_of_le hchain (b.consumeAttempt_last_time_le t hle))

/-- C4: for every bucket built with leak rate R > 0 and capacity C >= 1, the
used-token count stays in [0, C] after construction and after every consume
step (for any non-decreasing sequence of clock readings); an attempt commits
(used + 1, last_update = now) exactly when the freshly decayed count plus one
fits within C, and a failed attempt only rewrites the decayed count. -/
theorem leaky_bucket_capacity_invariant :
    (∀ (rate : Rat) (cap used : Option Int) (now : Rat) (b : LeakyBucket),
        LeakyBucket.init rate cap used now = some b → b.Inv) ∧
    (∀ (b : LeakyBucket) (now : Rat), b.Inv → b.last_time ≤ now →
        ((b.consumeAttempt now).2).Inv) ∧
    (∀ (b : LeakyBucket) (now : Rat), (b.consumeAttempt now).1 = true →
        1 + (b.getUsedTokens true now).1 ≤ b.capacity ∧
        (b.consumeAttempt now).2.used_tokens = (b.getUsedTokens true now).1 + 1 ∧
        (b.consumeAttempt now).2.last_time = now) ∧
    (∀ (b : LeakyBucket) (now : Rat), ¬ (1 + (b.getUsedTokens true now).1 ≤ b.capacity) →
        (b.consumeAttempt now).1 = false ∧
        (b.consumeAttempt now).2 = (b.getUsedTokens true now).2) ∧
    (∀ (b : LeakyBucket) (ts : List Rat), b.Inv →
        List.Chain (fun x y : Rat => x ≤ y) b.last_time ts →
        ((b.consumeRun ts).2).Inv) := by
  refine ⟨fun rate cap used now b h => LeakyBucket.init_inv rate cap used now b h,
    fun b now hb ht => b.consumeAttempt_inv now hb ht, ?_, ?_,
    fun b ts hb hc => LeakyBucket.consumeRun_inv ts b hb hc⟩
  · intro b now h
    by_cases hc : 1 + (b.getUsedTokens true now).1 ≤ b.capacity
    · refine ⟨hc, ?_, ?_⟩ <;> rw [b.consumeAttempt_pos now hc]
    · rw [b.consumeAttempt_neg now hc] at h
      simp at h
  · intro b now hc
    rw [b.consumeAttempt_neg now hc]
    exact ⟨rfl, rfl⟩

/-- Witness for C4 at a concrete bucket: construction with rate 10 and default
capacity at time 0 yields a bucket satisfying the invariant, and an attempt at
the same instant preserves it. -/
theorem leaky_bucket_capacity_invariant_witness :
    LeakyBucket.Inv { capacity := 1, used_tokens := 0, leak_rate := 10, last_time := 0 } ∧
    LeakyBucket.Inv ((LeakyBucket.consumeAttempt
      { capacity := 1, used_tokens := 0, leak_rate := 10, last_time := 0 } 0).2) := by
  have hb : LeakyBucket.Inv
      { capacity := 1, used_tokens := 0, leak_rate := 10, last_time := 0 } :=
    leaky_bucket_capacity_invariant.1 10 none none 0 _ rfl
  exact ⟨hb, leaky_bucket_capacity_invariant.2.1 _ 0 hb (le_refl 0)⟩

/-- C6: should_refresh is true iff the current time is before expiry and at or
past expiry minus three days; in particular it is false more than three days
out and false once expired. -/
theorem should_refresh_window (k : TokenKeeper) (now : Rat) :
    k.should_refresh now = true ↔ (now < k.expiry ∧ k.expiry - threeDays ≤ now) := by
  unfold TokenKeeper.should_refresh
  split_ifs with h1 h2
  · simp only [false_iff]
    rintro ⟨hlt, -⟩
    exact absurd h1 (not_le.mpr hlt)
  · simp only [true_iff]
    exact ⟨lt_of_not_ge h1, h2⟩
  · simp only [false_iff]
    rintro ⟨-, hge⟩
    exact h2 hge

/-- When no registered broker carries the requested instance id, the loop falls
through to the for-else and raises the uniform not-found. -/
lemma authLoop_no_instance (instance_id token : String) (brokers : List BrokerInstance)
    (h : ∀ b ∈ brokers, b.instance_id ≠ instance_id) :
    authLoop instance_id token brokers = AuthResult.notFound := by
  induction brokers with
  | nil => rfl
  | cons broker rest ih =>
    unfold authLoop
    rw [if_pos (h broker (List.mem_cons_self broker rest))]
    exact ih fun b hb => h b (List.mem_cons_of_mem broker hb)

/-- When the token belongs to no broker's token set, the loop raises the
uniform not-found (either by falling through or at the first id match). -/
lemma authLoop_no_token (instance_id token : String) (brokers : List BrokerInstance)
    (h : ∀ b ∈ brokers, token ∉ b.tokens) :
    authLoop instance_id token brokers = AuthResult.notFound := by
  induction brokers with
  | nil => rfl
  | cons broker rest ih =>
    unfold authLoop
    by_cases hid : broker.instance_id ≠ instance_id
    · rw [if_pos hid]
      exact ih fun b hb => h b (List.mem_cons_of_mem broker hb)
    · rw [if_neg hid, if_pos (h broker (List.mem_cons_self broker rest))]

/-- The loop attaches a broker only when it is registered, its instance id is
the requested one, and the token is in its set. -/
lemma authLoop_ok (instance_id token : String) (brokers : List BrokerInstance)
    (b : BrokerInstance) (h : authLoop instance_id token brokers = AuthResult.ok b) :
    b ∈ brokers ∧ b.instance_id = instance_id ∧ token ∈ b.tokens := by
  induction brokers with
  | nil => cases h
  | cons broker rest ih =>
    unfold authLoop at h
    by_cases hid : broker.instance_id ≠ instance_id
    · rw [if_pos hid] at h
      obtain ⟨hm, hi, htk⟩ := ih h
      exact ⟨List.mem_cons_of_mem broker hm, hi, htk⟩
    · rw [if_neg hid] at h
      by_cases htk : token ∉ broker.tokens
      · rw [if_pos htk] at h
        cases h
      · rw [if_neg htk] at h
        cases h
        exact ⟨List.mem_cons_self _ _, not_not.mp hid, not_not.mp htk⟩

/-- C5: every authentication failure — instance id matching no registered
broker, missing token header, token length outside 16..64, or token not in the
matched instance's set — produces the same AuthResult.notFound value as any
unknown route, and the handler receives a broker exactly when both the
instance id and the token match. -/
theorem auth_uniform_not_found :
    (∀ (brokers : List BrokerInstance) (iid tok : String),
        (∀ b ∈ brokers, b.instance_id ≠ iid) →
        auth_middleware brokers iid tok = AuthResult.notFound) ∧
    (∀ (brokers : List BrokerInstance) (iid : String),
        auth_middleware brokers iid "" = AuthResult.notFound) ∧
    (∀ (brokers : List BrokerInstance) (iid tok : String),
        tok.length < 16 ∨ tok.length > 64 →
        auth_middleware brokers iid tok = AuthResult.notFound) ∧
    (∀ (brokers : List BrokerInstance) (iid tok : String),
        (∀ b ∈ brokers, tok ∉ b.tokens) →
        auth_middleware brokers iid tok = AuthResult.notFound) ∧
    (∀ (brokers : List BrokerInstance) (iid tok : String) (b : BrokerInstance),
        auth_middleware brokers iid tok = AuthResult.ok b →
        b ∈ brokers ∧ b.instance_id = iid ∧ tok ∈ b.tokens ∧
        16 ≤ tok.length ∧ tok.length ≤ 64 ∧ iid ≠ "") := by
  refine ⟨?_, ?_, ?_, ?_, ?_⟩
  · intro brokers iid tok h
    unfold auth_middleware
    split_ifs with h1 h2 h3
    · rfl
    · rfl
    · rfl
    · exact authLoop_no_instance iid tok brokers h
  · intro brokers iid
    unfold auth_middleware
    by_cases h1 : iid = ""
    · rw [if_pos h1]
    · rw [if_neg h1, if_pos rfl]
  · intro brokers iid tok h
    unfold auth_middleware
    by_cases h1 : iid = ""
    · rw [if_pos h1]
    · rw [if_neg h1]
      by_cases h2 : tok = ""
      · rw [if_pos h2]
      · rw [if_neg h2, if_pos h]
  · intro brokers iid tok h
    unfold auth_middleware
    split_ifs with h1 h2 h3
    · rfl
    · rfl
    · rfl
    · exact authLoop_no_token iid tok brokers h
  · intro brokers iid tok b h
    unfold auth_middleware at h
    by_cases h1 : iid = ""
    · rw [if_pos h1] at h
      cases h
    · rw [if_neg h1] at h
      by_cases h2 : tok = ""
      · rw [if_pos h2] at h
        cases h
      · rw [if_neg h2] at h
        by_cases h3 : tok.length < 16 ∨ tok.length > 64
        · rw [if_pos h3] at h
          cases h
        · rw [if_neg h3] at h
          obtain ⟨hm, hi, htk⟩ := authLoop_ok iid tok brokers b h
          push_neg at h3
          exact ⟨hm, hi, htk, h3.1, h3.2, h1⟩

/-- Witness for C5 at a concrete registry: a well-formed 19-character token
that is not in the matched instance's token set receives the uniform
not-found. -/
theorem auth_uniform_not_found_witness :
    auth_middleware
      [{ instance_id := "inst000000000000", tokens := ["token00000000000000"] }]
      "inst000000000000" "token99999999999999" = AuthResult.notFound :=
  auth_uniform_not_found.2.2.2.1
    [{ instance_id := "inst000000000000", tokens := ["token00000000000000"] }]
    "inst000000000000" "token99999999999999" (by decide)

/-- C7: loading a persisted credential record fails when the token field is
missing or empty or when the recorded expiry is at or before the current time;
on success the keeper's in-memory token and expiry equal the persisted values
(and the expiry is strictly in the future). -/
theorem token_keeper_load (tokenOpt : Option String) (expiryOpt : Option Rat) (now : Rat) :
    ((tokenOpt = none ∨ tokenOpt = some "") →
        ∃ msg, TokenKeeper.init tokenOpt expiryOpt now = Except.error msg) ∧
    (∀ e, expiryOpt = some e → e ≤ now →
        ∃ msg, TokenKeeper.init tokenOpt expiryOpt now = Except.error msg) ∧
    (∀ k, TokenKeeper.init tokenOpt expiryOpt now = Except.ok k →
        tokenOpt = some k.token ∧ expiryOpt = some k.expiry ∧
        now < k.expiry ∧ k.token ≠ "") := by
  refine ⟨?_, ?_, ?_⟩
  · rintro (rfl | rfl) <;> exact ⟨_, rfl⟩
  · rintro e rfl he
    unfold TokenKeeper.init
    by_cases ht : tokenOpt.getD "" = ""
    · rw [if_pos ht]
      exact ⟨_, rfl⟩
    · rw [if_neg ht]
      dsimp only
      rw [if_pos (show now ≥ e by linarith)]
      exact ⟨_, rfl⟩
  · intro k h
    unfold TokenKeeper.init at h
    by_cases ht : tokenOpt.getD "" = ""
    · rw [if_pos ht] at h
      cases h
    · rw [if_neg ht] at h
      cases hexp : expiryOpt with
      | none => rw [hexp] at h; cases h
      | some e =>
        rw [hexp] at h
        dsimp only at h
        by_cases he : now ≥ e
        · rw [if_pos he] at h
          cases h
        · rw [if_neg he] at h
          cases h
          cases htok : tokenOpt with
          | none => rw [htok] at ht; exact absurd rfl ht
          | some t =>
            rw [htok] at ht
            exact ⟨rfl, rfl, lt_of_not_ge he, ht⟩

/-- Witness for C7: loading the record (token "T", expiry 100) at time 0
succeeds and the keeper carries exactly the persisted token and expiry;
the same call with expiry 0 at time 0 is rejected. -/
theorem token_keeper_load_witness :
    (some "T" : Option String) = some (TokenKeeper.mk "T" 100).token ∧
    (some (100 : Rat) : Option Rat) = some (TokenKeeper.mk "T" 100).expiry ∧
    (0 : Rat) < (TokenKeeper.mk "T" 100).expiry ∧
    (TokenKeeper.mk "T" 100).token ≠ "" ∧
    (∃ msg, TokenKeeper.init (some "T") (some 0) 0 = Except.error msg) := by
  refine ⟨?_, ?_, ?_, ?_, ?_⟩
  · exact ((token_keeper_load (some "T") (some 100) 0).2.2 (TokenKeeper.mk "T" 100) rfl).1
  · exact ((token_keeper_load (some "T") (some 100) 0).2.2 (TokenKeeper.mk "T" 100) rfl).2.1
  · exact ((token_keeper_load (some "T") (some 100) 0).2.2 (TokenKeeper.mk "T" 100) rfl).2.2.1
  · exact ((token_keeper_load (some "T") (some 100) 0).2.2 (TokenKeeper.mk "T" 100) rfl).2.2.2
  · exact (token_keeper_load (some "T") (some 0) 0).2.1 0 rfl (le_refl 0)

/-- C8: every handler outcome — success, BrokerError, or any other exception —
is rendered through response_api into the single apiResponse envelope: the
fixed keys type/instanceId/broker/brokerDisplay/time/ex come first, ex is null
exactly on success and the stringified error otherwise, and the broker
identity fields are filled when the broker is known and null otherwise. -/
theorem exception_envelope_shape (timeStr : String) (o : HandlerOutcome) :
    ((exception_middleware timeStr o).lookup "type" = some (JValue.str "apiResponse")) ∧
    ((exception_middleware timeStr o).lookup "time" = some (JValue.str timeStr)) ∧
    (∃ extra, (exception_middleware timeStr o).map Prod.fst =
        ["type", "instanceId", "broker", "brokerDisplay", "time", "ex"] ++ extra) ∧
    (match o with
     | HandlerOutcome.success broker args =>
        exception_middleware timeStr o = response_api timeStr (some broker) args none ∧
        (exception_middleware timeStr o).lookup "ex" = some JValue.null ∧
        (exception_middleware timeStr o).lookup "instanceId"
          = some (JValue.str broker.instance_id) ∧
        (exception_middleware timeStr o).lookup "broker"
          = some (JValue.str broker.broker_name) ∧
        (exception_middleware timeStr o).lookup "brokerDisplay"
          = some (JValue.str broker.broker_display)
     | HandlerOutcome.brokerError broker msg =>
        (exception_middleware timeStr o).lookup "ex" = some (JValue.str msg) ∧
        (exception_middleware timeStr o).lookup "instanceId"
          = some (JValue.str broker.instance_id) ∧
        (exception_middleware timeStr o).lookup "broker"
          = some (JValue.str broker.broker_name) ∧
        (exception_middleware timeStr o).lookup "brokerDisplay"
          = some (JValue.str broker.broker_display)
     | HandlerOutcome.otherError (some broker) msg =>
        (exception_middleware timeStr o).lookup "ex" = some (JValue.str msg) ∧
        (exception_middleware timeStr o).lookup "instanceId"
          = some (JValue.str broker.instance_id)
     | HandlerOutcome.otherError none msg =>
        (exception_middleware timeStr o).lookup "ex" = some (JValue.str msg) ∧
        (exception_middleware timeStr o).lookup "instanceId" = some JValue.null ∧
        (exception_middleware timeStr o).lookup "broker" = some JValue.null ∧
        (exception_middleware timeStr o).lookup "brokerDisplay" = some JValue.null) := by
  cases o with
  | success broker args =>
    exact ⟨rfl, rfl,
      ⟨args.map Prod.fst, by
        simp [exception_middleware, response_api]⟩,
      rfl, rfl, rfl, rfl, rfl⟩
  | brokerError broker msg =>
    exact ⟨rfl, rfl, ⟨[], rfl⟩, rfl, rfl, rfl, rfl⟩
  | otherError broker msg =>
    cases broker with
    | none => exact ⟨rfl, rfl, ⟨[], rfl⟩, rfl, rfl, rfl, rfl⟩
    | some broker => exact ⟨rfl, rfl, ⟨[], rfl⟩, rfl, rfl⟩

/-- C9: two Contract values are equal exactly when their (trade_type, symbol,
region) triples agree componentwise (in which case they are the same value),
equal Contracts hash identically, and the order in which the fields are
supplied at construction is irrelevant. -/
theorem contract_identity (a b : Contract) :
    (Contract.beqContract a b = true ↔
      (a.trade_type = b.trade_type ∧ a.symbol = b.symbol ∧ a.region = b.region)) ∧
    (Contract.beqContract a b = true → a = b) ∧
    (Contract.beqContract a b = true → Contract.hashValue a = Contract.hashValue b) ∧
    (∀ (t : TradeType) (s r : String),
      Contract.beqContract { trade_type := t, symbol := s, region := r }
        { symbol := s, region := r, trade_type := t } = true) := by
  have hpair : Contract.beqContract a b = true ↔ a.unique_pair = b.unique_pair := by
    simp [Contract.beqContract]
  refine ⟨?_, ?_, ?_, ?_⟩
  · rw [hpair]
    unfold Contract.unique_pair
    constructor
    · intro h
      exact ⟨congrArg Prod.fst h, congrArg (fun p => p.2.1) h, congrArg (fun p => p.2.2) h⟩
    · rintro ⟨h1, h2, h3⟩
      rw [h1, h2, h3]
  · intro h
    have hp := hpair.mp h
    cases a
    cases b
    simpa [Contract.mk.injEq, Contract.unique_pair, Prod.ext_iff] using hp
  · intro h
    unfold Contract.hashValue
    rw [hpair.mp h]
  · intro t s r
    simp [Contract.beqContract]

/-- Witness for C9 at concrete contracts: beqContract holds for the two field
orders of (Securities, "AAPL", "US"), so the two constructions are the same
value and hash identically. -/
theorem contract_identity_witness :
    { trade_type := TradeType.Securities, symbol := "AAPL", region := "US" : Contract }
      = { symbol := "AAPL", region := "US", trade_type := TradeType.Securities : Contract } ∧
    Contract.hashValue
        { trade_type := TradeType.Securities, symbol := "AAPL", region := "US" }
      = Contract.hashValue
        { symbol := "AAPL", region := "US", trade_type := TradeType.Securities } :=
  ⟨(contract_identity
      { trade_type := TradeType.Securities, symbol := "AAPL", region := "US" }
      { symbol := "AAPL", region := "US", trade_type := TradeType.Securities }).2.1 rfl,
   (contract_identity
      { trade_type := TradeType.Securities, symbol := "AAPL", region := "US" }
      { symbol := "AAPL", region := "US", trade_type := TradeType.Securities }).2.2.1 rfl⟩

end HttpTrading
